import Mathlib

/-!
Shallow embedding of the Basel traffic dashboard core (src/app.py).

Numeric values that the program holds as floats are modelled as rationals
(ℚ); a float NaN (missing value after `pd.to_numeric(..., errors="coerce")`
or `pd.to_datetime(..., errors="coerce")`) is modelled as `none` of an
`Option`.  A dataframe is a list of records; a derived column is a function
on records.  The square root used by the confidence-interval code is passed
in as an abstract function `sq : ℚ → ℚ`, since every property of interest
here is independent of its values.
-/

/-- One row of the dataset after the typing step of `load_data`:
`detid` (string, possibly absent value), `day` (parsed date, modelled as
days since a fixed Monday, `none` when unparsable), `interval`, `flow`,
`occ` (numeric, `none` when unparsable). -/
structure Record where
  detid : Option String
  day : Option Nat
  interval : Option ℚ
  flow : Option ℚ
  occ : Option ℚ
deriving DecidableEq, Repr

/-- Derived column `hour_bin` of `load_data`:
`np.floor(df["interval"] / 3600.0).astype("Int64")`.  Missing exactly when
`interval` is missing; no range check is applied. -/
def hourBin (r : Record) : Option ℤ :=
  r.interval.map fun q => ⌊q / 3600⌋

/-- Derived column `hour` of `interval_occ_ci_plot`: the continuous value
`interval / 3600.0`. -/
def hourCont (r : Record) : Option ℚ :=
  r.interval.map fun q => q / 3600

/-- Derived column `kategori_hari` of `load_data`:
`day.dt.weekday.apply(lambda x: "Akhir Pekan" if x in [5, 6] else "Hari Kerja")`.
For an unparsable date the weekday is NaN, and `NaN in [5, 6]` is false, so
the row is labelled "Hari Kerja". -/
def kategori_hari (day : Option Nat) : String :=
  match day with
  | some d => if d % 7 = 5 ∨ d % 7 = 6 then "Akhir Pekan" else "Hari Kerja"
  | none => "Hari Kerja"

/-- Derived column `day_type` of `add_day_type`:
`np.where(df["day"].dt.dayofweek < 5, "Hari Kerja", "Akhir Pekan")`.
For an unparsable date the weekday is NaN, and `NaN < 5` is false, so the
row is labelled "Akhir Pekan". -/
def day_type (day : Option Nat) : String :=
  match day with
  | some d => if d % 7 < 5 then "Hari Kerja" else "Akhir Pekan"
  | none => "Akhir Pekan"

/-- Linear-interpolation step of the pandas `quantile` at position `h`
inside the sorted list `t`: with `i = ⌊h⌋` and `γ = h - i`, the value is
`t[i] + γ * (t[i+1] - t[i])`, and `t[i]` when `i` is the last index. -/
def interp (t : List ℚ) (h : ℚ) : ℚ :=
  match t.get? ⌊h⌋.toNat, t.get? (⌊h⌋.toNat + 1) with
  | some a, some b => a + (h - ((⌊h⌋.toNat : ℕ) : ℚ)) * (b - a)
  | some a, none => a
  | none, _ => 0

/-- Pandas `Series.quantile(p)` with the default linear interpolation:
sort the values and interpolate at position `p * (n - 1)`. -/
def quantile (s : List ℚ) (p : ℚ) : ℚ :=
  interp (s.insertionSort (· ≤ ·)) (p * ((s.length : ℚ) - 1))

/-- The quantile triple chosen by `get_thresholds` for each sensitivity
string ("Rendah" = Low, "Tinggi" = High, anything else = Medium). -/
def sensQs (sensitivity : String) : ℚ × ℚ × ℚ :=
  if sensitivity = "Rendah" then (35/100, 65/100, 85/100)
  else if sensitivity = "Tinggi" then (15/100, 35/100, 60/100)
  else (25/100, 50/100, 75/100)

/-- `get_thresholds`: drop missing flow values; `None` when nothing is
left, otherwise the three quantiles of the remaining values at the
sensitivity-dependent probabilities. -/
def get_thresholds (flow_series : List (Option ℚ)) (sensitivity : String) :
    Option (ℚ × ℚ × ℚ) :=
  let s := flow_series.filterMap id
  if s.length = 0 then none
  else
    let p := sensQs sensitivity
    some (quantile s p.1, quantile s p.2.1, quantile s p.2.2)

/-- `classify_status`: "Tidak tersedia" when the thresholds are undefined
or the flow value is missing, otherwise the four-way comparison with
inclusive upper bounds. -/
def classify_status (flow_value : Option ℚ) (thresholds : Option (ℚ × ℚ × ℚ)) :
    String :=
  match thresholds, flow_value with
  | none, _ => "Tidak tersedia"
  | some _, none => "Tidak tersedia"
  | some (q1, q2, q3), some v =>
    if v ≤ q1 then "Lancar"
    else if v ≤ q2 then "Sedang"
    else if v ≤ q3 then "Padat"
    else "Sangat Padat"

/-- Sorted list of the distinct values of a key column, as produced by
`groupby(..., sort=True)` (missing keys already removed). -/
def sortedKeys {κ : Type} [DecidableEq κ] [LinearOrder κ] (xs : List κ) : List κ :=
  (xs.dedup).insertionSort (· ≤ ·)

/-- Pandas column mean: NaN (`none`) when every value is missing,
otherwise the arithmetic mean of the non-missing values. -/
def meanOpt (xs : List ℚ) : Option ℚ :=
  if xs.length = 0 then none else some (xs.sum / (xs.length : ℚ))

/-- One output row of `agg_24h`. -/
structure AggRow where
  hour_bin : ℤ
  flow_mean : Option ℚ
  occ_mean : Option ℚ
  n : ℕ
deriving DecidableEq, Repr

/-- `agg_24h`: drop rows with missing `hour_bin`, group by `hour_bin`,
take `flow_mean = ("flow", "mean")`, `occ_mean = ("occ", "mean")` and
`n = ("flow", "size")` (the group size, counting rows whose flow is
missing), sorted ascending by `hour_bin`. -/
def agg_24h (rows : List Record) : List AggRow :=
  (sortedKeys (rows.filterMap hourBin)).map fun k =>
    let g := rows.filter fun r => hourBin r = some k
    { hour_bin := k
      flow_mean := meanOpt (g.filterMap Record.flow)
      occ_mean := meanOpt (g.filterMap Record.occ)
      n := g.length }

/-- One output row of `agg_by_detid_at_hour`. -/
structure DetAggRow where
  detid : String
  flow_mean : Option ℚ
  occ_mean : Option ℚ
  n : ℕ
deriving DecidableEq, Repr

/-- The descending `sort_values("flow_mean", ascending=False)` order on
optional means, NaN placed last (`na_position="last"`). -/
def flowDescB (a b : Option ℚ) : Bool :=
  match a, b with
  | some x, some y => y ≤ x
  | some _, none => true
  | none, some _ => false
  | none, none => true

/-- The row order used to sort the detector ranking. -/
def flowDesc (a b : DetAggRow) : Prop :=
  flowDescB a.flow_mean b.flow_mean = true

instance : DecidableRel flowDesc := fun _a _b =>
  inferInstanceAs (Decidable (_ = true))

/-- `agg_by_detid_at_hour`: keep the rows of the selected hour; an empty
dataframe when the `detid` column is absent (modelled by the `hasDetid`
flag); otherwise drop rows with missing `detid`, group by `detid` with the
same aggregates as `agg_24h`, and sort descending by `flow_mean`. -/
def agg_by_detid_at_hour (hasDetid : Bool) (rows : List Record)
    (hour_selected : ℤ) : List DetAggRow :=
  let d := rows.filter fun r => hourBin r = some hour_selected
  if hasDetid then
    ((sortedKeys (d.filterMap Record.detid)).map fun k =>
      let g := d.filter fun r => r.detid = some k
      { detid := k
        flow_mean := meanOpt (g.filterMap Record.flow)
        occ_mean := meanOpt (g.filterMap Record.occ)
        n := g.length } : List DetAggRow).insertionSort flowDesc
  else []

/-- The `dropna(subset=["occ", "interval"])` step shared by both CI
variants. -/
def dropnaOccInterval (rows : List Record) : List Record :=
  rows.filter fun r => r.occ.isSome && r.interval.isSome

/-- Arithmetic mean of a list of rationals (the groups it is applied to
are never empty). -/
def listMean (xs : List ℚ) : ℚ :=
  xs.sum / (xs.length : ℚ)

/-- Pandas sample standard deviation (`ddof = 1`) of a column, NaN
(`none`) for groups of fewer than two values, parametrized by the square
root function `sq`. -/
def sampleStd (sq : ℚ → ℚ) (xs : List ℚ) : Option ℚ :=
  if xs.length ≤ 1 then none
  else some (sq ((xs.map fun x => (x - listMean xs) ^ 2).sum / ((xs.length : ℚ) - 1)))

/-- One output row of the `grp` dataframe of `interval_occ_ci_plot`:
the group key is the continuous hour value `interval / 3600`. -/
structure CIRowP where
  hour : ℚ
  mean : ℚ
  std : Option ℚ
  count : ℕ
  se : Option ℚ
  ci_low : Option ℚ
  ci_high : Option ℚ
deriving DecidableEq, Repr

/-- `interval_occ_ci_plot`: `None` when nothing survives the dropna
(the function returns no figure); otherwise group by the continuous
`hour = interval / 3600`, with `se = std / sqrt(count)` (`count` is never
0, so `replace(0, nan)` is the identity) and
`ci_low/ci_high = mean ∓ 1.96 * se`.  A NaN `std` (single-value group)
propagates into `se`, `ci_low` and `ci_high`. -/
def interval_occ_ci_plot (sq : ℚ → ℚ) (rows : List Record) :
    Option (List CIRowP) :=
  let d := dropnaOccInterval rows
  if d.length = 0 then none
  else some ((sortedKeys (d.filterMap hourCont)).map fun h =>
    let xs := (d.filter fun r => hourCont r = some h).filterMap Record.occ
    let m := listMean xs
    let sd := sampleStd sq xs
    let se := sd.map fun s => s / sq (xs.length : ℚ)
    { hour := h
      mean := m
      std := sd
      count := xs.length
      se := se
      ci_low := se.map fun e => m - 196/100 * e
      ci_high := se.map fun e => m + 196/100 * e })

/-- The `0 ≤ hour ≤ 23` row filter of `interval_occ_ci_fig`. -/
def hourInRange (r : Record) : Bool :=
  match hourBin r with
  | some k => decide (0 ≤ k) && decide (k ≤ 23)
  | none => false

/-- One output row of the `grp` dataframe of `interval_occ_ci_fig`:
the group key is the floored integer hour. -/
structure CIRowF where
  hour : ℤ
  mean_occ : ℚ
  std_occ : ℚ
  n : ℕ
  se : ℚ
  ci_low : ℚ
  ci_high : ℚ
deriving DecidableEq, Repr

/-- `interval_occ_ci_fig`: dropna on `interval` and `occ`, floor the hour
and keep hours 0..23, group by hour; a NaN `std` (single-value group) is
replaced by 0 (`fillna(0)`), `se = std / sqrt(clip(n, lower=1))`, and
`ci_low/ci_high = mean ∓ 1.96 * se` are always defined. -/
def interval_occ_ci_fig (sq : ℚ → ℚ) (rows : List Record) : List CIRowF :=
  let d := (dropnaOccInterval rows).filter hourInRange
  (sortedKeys (d.filterMap hourBin)).map fun k =>
    let xs := (d.filter fun r => hourBin r = some k).filterMap Record.occ
    let m := listMean xs
    let sd := (sampleStd sq xs).getD 0
    let se := sd / sq ((max xs.length 1 : ℕ) : ℚ)
    { hour := k
      mean_occ := m
      std_occ := sd
      n := xs.length
      se := se
      ci_low := m - 196/100 * se
      ci_high := m + 196/100 * se }

example : hourBin ⟨none, none, some 3600, none, none⟩ = some 1 := by
  norm_num [hourBin]
example : hourBin ⟨none, none, some (-1), none, none⟩ = some (-1) := by
  norm_num [hourBin]
example : kategori_hari none = "Hari Kerja" := rfl
example : day_type none = "Akhir Pekan" := rfl
example : quantile [50, 100, 150, 0] (1/2) = 75 := by
  norm_num [quantile, interp, List.insertionSort, List.orderedInsert]
example :
    classify_status (some 100) (some (50, 100, 150)) = "Sedang" := by
  norm_num [classify_status]
example :
    (agg_24h [⟨none, none, some 0, none, none⟩]).map AggRow.n = [1] := by
  norm_num [agg_24h, sortedKeys, hourBin, List.filterMap, List.insertionSort,
    List.orderedInsert, List.dedup, List.filter]

/-- A record with a valid interval (hour 0) and a missing flow value. -/
def rowNoFlow : Record := ⟨none, none, some 0, none, none⟩

/-- A record whose interval is negative. -/
def rowNegInterval : Record := ⟨none, none, some (-1), none, none⟩

/-- A record with interval 0 and occupancy 1. -/
def rowOcc1 : Record := ⟨none, none, some 0, none, some 1⟩

/-- A record with interval 0 and occupancy 0. -/
def rowOcc0 : Record := ⟨none, none, some 0, none, some 0⟩

/-- A record with interval 1800 (half past midnight) and occupancy 1. -/
def rowOccHalf : Record := ⟨none, none, some 1800, none, some 1⟩

/-- A record with interval 0 and occupancy 2. -/
def rowOcc2 : Record := ⟨none, none, some 0, none, some 2⟩

/-- The CI row produced by `interval_occ_ci_fig` on `[rowOcc0, rowOcc2]`
with the constant-one square-root function. -/
def ciRowF2 : CIRowF := ⟨0, 1, 1, 2, 1, -24/25, 74/25⟩

/-- A record with detector id "a", interval 0 and no other values. -/
def rowDetA : Record := ⟨some "a", none, some 0, none, none⟩

/-- The single ranking row produced by `agg_by_detid_at_hour` on
`[rowDetA]` at hour 0. -/
def rowDetAgg : DetAggRow := ⟨"a", none, none, 1⟩

/-- The CI row produced by `interval_occ_ci_fig` on `[rowOcc1]` (with the
zero square-root function). -/
def ciRowF1 : CIRowF := ⟨0, 1, 0, 1, 0, 1, 1⟩

/-- The CI row produced by `interval_occ_ci_plot` on `[rowOcc1]` (with
the zero square-root function): the NaN standard deviation of the
single-sample group propagates into `se`, `ci_low` and `ci_high`. -/
def ciRowP1 : CIRowP := ⟨0, 1, none, 1, none, none, none⟩

/-! ### Generic grouping lemmas -/

/-- The size of the group of key `k` equals the number of occurrences of
`k` among the non-missing key values. -/
theorem length_filter_eq_count {α κ : Type} [DecidableEq κ]
    (key : α → Option κ) (rows : List α) (k : κ) :
    (rows.filter fun r => key r = some k).length
      = (rows.filterMap key).count k := by
  induction rows with
  | nil => simp
  | cons r t ih =>
    cases hk : key r with
    | none => simp [List.filter_cons, List.filterMap_cons, hk, ih]
    | some j =>
      by_cases hjk : j = k
      · subst hjk
        simp [List.filter_cons, List.filterMap_cons, hk, List.count_cons, ih]
      · simp [List.filter_cons, List.filterMap_cons, hk, List.count_cons, hjk, ih]

/-- Summing the multiplicities of a duplicate-free list of keys covering
`hs` recovers the length of `hs`. -/
theorem sum_counts_of_nodup {κ : Type} [DecidableEq κ] :
    ∀ (ks hs : List κ), ks.Nodup → (∀ x ∈ hs, x ∈ ks) →
      (ks.map fun k => hs.count k).sum = hs.length := by
  intro ks
  induction ks with
  | nil =>
    intro hs _ hsub
    have : hs = [] := by
      apply List.eq_nil_iff_forall_not_mem.mpr
      intro x hx
      exact absurd (hsub x hx) (List.not_mem_nil x)
    simp [this]
  | cons k ks ih =>
    intro hs hnd hsub
    obtain ⟨hknotin, hnd'⟩ := List.nodup_cons.mp hnd
    have h1 : ∀ k' ∈ ks, hs.count k' = (hs.filter fun x => ¬ x = k).count k' := by
      intro k' hk'
      have hne : k' ≠ k := fun h => hknotin (h ▸ hk')
      rw [List.count_filter]
      simp [hne]
    have h2 : ∀ x ∈ (hs.filter fun x => ¬ x = k), x ∈ ks := by
      intro x hx
      obtain ⟨hxhs, hxp⟩ := List.mem_filter.mp hx
      rcases List.mem_cons.mp (hsub x hxhs) with h | h
      · exact absurd h (by simpa using hxp)
      · exact h
    have h3 : hs.length = hs.count k + (hs.filter fun x => ¬ x = k).length := by
      rw [← List.countP_eq_length_filter, List.count,
        List.length_eq_countP_add_countP (· == k) hs]
      congr 1
      apply List.countP_congr
      intro x _
      by_cases hxk : x = k <;> simp [hxk]
    rw [List.map_cons, List.sum_cons,
      List.map_congr_left h1, ih _ hnd' h2, h3]

/-- Summing the group sizes over the sorted distinct keys recovers the
number of rows with a non-missing key. -/
theorem sum_group_sizes {α κ : Type} [DecidableEq κ] [LinearOrder κ]
    (key : α → Option κ) (rows : List α) :
    ((sortedKeys (rows.filterMap key)).map fun k =>
        (rows.filter fun r => key r = some k).length).sum
      = (rows.filterMap key).length := by
  have hcongr : ∀ k ∈ sortedKeys (rows.filterMap key),
      (rows.filter fun r => key r = some k).length
        = (rows.filterMap key).count k := fun k _ =>
    length_filter_eq_count key rows k
  rw [List.map_congr_left hcongr]
  have hperm : List.Perm (sortedKeys (rows.filterMap key))
      ((rows.filterMap key).dedup) :=
    List.perm_insertionSort _ _
  rw [(hperm.map _).sum_eq]
  exact sum_counts_of_nodup _ _ (List.nodup_dedup _)
    (fun x hx => List.mem_dedup.mpr hx)

/-- Rows with a non-missing key are exactly the outputs of `filterMap`. -/
theorem length_filterMap_eq_isSome {α κ : Type} (key : α → Option κ)
    (rows : List α) :
    (rows.filterMap key).length
      = (rows.filter fun r => (key r).isSome).length := by
  induction rows with
  | nil => simp
  | cons r t ih =>
    cases hk : key r with
    | none => simp [List.filterMap_cons, List.filter_cons, hk, ih]
    | some j => simp [List.filterMap_cons, List.filter_cons, hk, ih]

/-- Membership in the sorted distinct keys is membership among the values. -/
theorem mem_sortedKeys {κ : Type} [DecidableEq κ] [LinearOrder κ]
    {xs : List κ} {k : κ} :
    k ∈ sortedKeys xs ↔ k ∈ xs := by
  unfold sortedKeys
  rw [List.mem_insertionSort]
  exact List.mem_dedup

/-- The hour keys of the 24-hour aggregate are the sorted distinct
non-missing hour values. -/
theorem agg_24h_keys (rows : List Record) :
    (agg_24h rows).map AggRow.hour_bin = sortedKeys (rows.filterMap hourBin) := by
  unfold agg_24h
  rw [List.map_map]
  exact List.map_id _

/-- The count column of the 24-hour aggregate is the group size. -/
theorem agg_24h_n (rows : List Record) :
    (agg_24h rows).map AggRow.n
      = (sortedKeys (rows.filterMap hourBin)).map fun k =>
          (rows.filter fun r => hourBin r = some k).length := by
  unfold agg_24h
  rw [List.map_map]
  rfl

/-! ### C1: the count column of the hourly aggregation -/

/-- C1 (amended): in `agg_24h` the sum of the per-hour `n` column equals
the number of input rows with a non-missing hour bucket, regardless of
whether their flow value is missing: `n` is the group size
(`("flow", "size")`), not the number of records contributing to
`flow_mean`. -/
theorem agg_24h_count_total (rows : List Record) :
    ((agg_24h rows).map AggRow.n).sum
      = (rows.filter fun r => (hourBin r).isSome).length := by
  rw [agg_24h_n, sum_group_sizes, length_filterMap_eq_isSome]

/-- C1 counterexample: a single row with a parseable interval and a
missing flow value is counted by `n`, so the sum of counts (1) differs
from the number of rows with non-missing hour AND non-missing flow (0). -/
theorem agg_24h_count_claim_cex :
    ¬ ((agg_24h [rowNoFlow]).map AggRow.n).sum
      = ([rowNoFlow].filter fun r => (hourBin r).isSome && r.flow.isSome).length := by
  norm_num [agg_24h, sortedKeys, hourBin, rowNoFlow, List.filterMap,
    List.insertionSort, List.orderedInsert, List.dedup, List.filter, meanOpt]

/-! ### C2: the hour resolver has no range guard -/

/-- C2 (amended): the hour resolver computes `floor(interval / 3600)` for
every parseable interval value — including negative values and values
above 86399, which yield out-of-range hour values rather than missing
ones — and is missing only when the interval itself is missing; every
non-missing hour value, in range or not, appears as a group key of the
hourly aggregation `agg_24h` (no exclusion takes place there). -/
theorem hourBin_floor_no_range_guard :
    (∀ (r : Record) (q : ℚ), r.interval = some q → hourBin r = some ⌊q / 3600⌋)
    ∧ (∀ r : Record, r.interval = none → hourBin r = none)
    ∧ (∀ (rows : List Record) (r : Record) (k : ℤ), r ∈ rows →
        hourBin r = some k → k ∈ (agg_24h rows).map AggRow.hour_bin) := by
  refine ⟨?_, ?_, ?_⟩
  · intro r q hq; simp [hourBin, hq]
  · intro r hq; simp [hourBin, hq]
  · intro rows r k hr hk
    rw [agg_24h_keys]
    exact mem_sortedKeys.mpr (List.mem_filterMap.mpr ⟨r, hr, hk⟩)

/-- Witness for the C2 theorem at concrete inputs: a record with interval
−1, a record with a missing interval, and the aggregation over the first
record. -/
theorem hourBin_floor_no_range_guard_witness :
    hourBin rowNegInterval = some (-1)
    ∧ hourBin ⟨none, none, none, none, none⟩ = none
    ∧ (-1 : ℤ) ∈ (agg_24h [rowNegInterval]).map AggRow.hour_bin := by
  refine ⟨?_, ?_, ?_⟩
  · rw [hourBin_floor_no_range_guard.1 rowNegInterval (-1) rfl]
    norm_num
  · exact hourBin_floor_no_range_guard.2.1 _ rfl
  · exact hourBin_floor_no_range_guard.2.2 [rowNegInterval] rowNegInterval (-1)
      (by simp) (by norm_num [hourBin, rowNegInterval])

/-- C2 counterexample: a negative interval yields the present hour −1
(not a missing value), and the record is not excluded from the hourly
aggregation: it forms the group keyed −1. -/
theorem hourBin_negative_not_missing_cex :
    hourBin rowNegInterval ≠ none
    ∧ (agg_24h [rowNegInterval]).map AggRow.hour_bin = [-1] := by
  constructor
  · simp [hourBin, rowNegInterval]
  · norm_num [agg_24h, sortedKeys, hourBin, rowNegInterval, List.filterMap,
      List.insertionSort, List.orderedInsert, List.dedup, List.filter]

/-! ### C3: the day-type classifiers -/

/-- C3 (amended): for a parseable date both classifiers map
Monday–Friday (weekday index < 5) to "Hari Kerja" and Saturday/Sunday to
"Akhir Pekan"; an unparsable date is never mapped to a missing value:
`load_data` labels it "Hari Kerja" while `add_day_type` labels it
"Akhir Pekan". -/
theorem day_classifiers_total :
    (∀ d : Nat, d % 7 < 5 →
        kategori_hari (some d) = "Hari Kerja" ∧ day_type (some d) = "Hari Kerja")
    ∧ (∀ d : Nat, 5 ≤ d % 7 →
        kategori_hari (some d) = "Akhir Pekan" ∧ day_type (some d) = "Akhir Pekan")
    ∧ kategori_hari none = "Hari Kerja" ∧ day_type none = "Akhir Pekan" := by
  refine ⟨?_, ?_, rfl, rfl⟩
  · intro d hd
    have h5 : ¬ d % 7 = 5 := by omega
    have h6 : ¬ d % 7 = 6 := by omega
    exact ⟨by simp [kategori_hari, h5, h6], by simp [day_type, hd]⟩
  · intro d hd
    have h7 : d % 7 < 7 := Nat.mod_lt _ (by norm_num)
    have h56 : d % 7 = 5 ∨ d % 7 = 6 := by omega
    have hge : ¬ d % 7 < 5 := by omega
    constructor
    · rcases h56 with h | h <;> simp [kategori_hari, h]
    · simp [day_type, hge]

/-- Witness for the C3 theorem: day 0 (a Monday) is a weekday for both
classifiers and day 5 (a Saturday) a weekend day for both. -/
theorem day_classifiers_total_witness :
    (kategori_hari (some 0) = "Hari Kerja" ∧ day_type (some 0) = "Hari Kerja")
    ∧ (kategori_hari (some 5) = "Akhir Pekan" ∧ day_type (some 5) = "Akhir Pekan") :=
  ⟨day_classifiers_total.1 0 (by norm_num),
   day_classifiers_total.2.1 5 (by norm_num)⟩

/-- C3 counterexample: an unparsable date does not produce a missing day
type; `load_data` classifies it as the weekday label and `add_day_type`
as the weekend label. -/
theorem day_classifiers_none_cex :
    kategori_hari none = "Hari Kerja" ∧ day_type none = "Akhir Pekan" :=
  ⟨rfl, rfl⟩

/-! ### C9: missing detector-id column -/

/-- C9: when the input has no detector-id column, the detector ranking is
the empty dataframe for every record set and hour: the feature is skipped
without an error. -/
theorem agg_by_detid_no_column (rows : List Record) (hour_selected : ℤ) :
    agg_by_detid_at_hour false rows hour_selected = [] := rfl

/-! ### Quantile interpolation lemmas -/

/-- Unfolding of `interp` on an interior segment. -/
theorem interp_eq_of_get? {t : List ℚ} {h : ℚ} {a b : ℚ}
    (ha : t.get? ⌊h⌋.toNat = some a) (hb : t.get? (⌊h⌋.toNat + 1) = some b) :
    interp t h = a + (h - ((⌊h⌋.toNat : ℕ) : ℚ)) * (b - a) := by
  unfold interp
  rw [ha, hb]

/-- Unfolding of `interp` at the last index. -/
theorem interp_eq_last {t : List ℚ} {h : ℚ} {a : ℚ}
    (ha : t.get? ⌊h⌋.toNat = some a) (hb : t.get? (⌊h⌋.toNat + 1) = none) :
    interp t h = a := by
  unfold interp
  rw [ha, hb]

/-- In a list sorted ascending, earlier entries are smaller. -/
theorem sorted_get?_le {t : List ℚ} (hs : t.Sorted (· ≤ ·)) {i j : ℕ} {a b : ℚ}
    (hij : i ≤ j) (ha : t.get? i = some a) (hb : t.get? j = some b) : a ≤ b := by
  obtain ⟨hi, hgi⟩ := List.get?_eq_some.mp ha
  obtain ⟨hj, hgj⟩ := List.get?_eq_some.mp hb
  have h := hs.rel_get_of_le
    (show (⟨i, hi⟩ : Fin t.length) ≤ ⟨j, hj⟩ from hij)
  rw [hgi, hgj] at h
  exact h

/-- The linear interpolation through a sorted list is monotone in the
position, as long as the position stays within the index range. -/
theorem interp_mono {t : List ℚ} (hs : t.Sorted (· ≤ ·)) {h₁ h₂ : ℚ}
    (h0 : 0 ≤ h₁) (h12 : h₁ ≤ h₂) (hub : h₂ ≤ (t.length : ℚ) - 1) :
    interp t h₁ ≤ interp t h₂ := by
  have h0' : 0 ≤ h₂ := le_trans h0 h12
  have hfl1 : (0 : ℤ) ≤ ⌊h₁⌋ := Int.floor_nonneg.mpr h0
  have hfl2 : (0 : ℤ) ≤ ⌊h₂⌋ := Int.floor_nonneg.mpr h0'
  have hc1 : ((⌊h₁⌋.toNat : ℤ)) = ⌊h₁⌋ := Int.toNat_of_nonneg hfl1
  have hc2 : ((⌊h₂⌋.toNat : ℤ)) = ⌊h₂⌋ := Int.toNat_of_nonneg hfl2
  have hq1le : ((⌊h₁⌋.toNat : ℚ)) ≤ h₁ := by
    have h := Int.floor_le h₁
    have hq : ((⌊h₁⌋.toNat : ℚ)) = ((⌊h₁⌋ : ℤ) : ℚ) := by exact_mod_cast hc1
    rw [hq]; exact h
  have hq1lt : h₁ < ((⌊h₁⌋.toNat : ℚ)) + 1 := by
    have h := Int.lt_floor_add_one h₁
    have hq : ((⌊h₁⌋.toNat : ℚ)) = ((⌊h₁⌋ : ℤ) : ℚ) := by exact_mod_cast hc1
    rw [hq]; exact_mod_cast h
  have hq2le : ((⌊h₂⌋.toNat : ℚ)) ≤ h₂ := by
    have h := Int.floor_le h₂
    have hq : ((⌊h₂⌋.toNat : ℚ)) = ((⌊h₂⌋ : ℤ) : ℚ) := by exact_mod_cast hc2
    rw [hq]; exact h
  have hii : ⌊h₁⌋.toNat ≤ ⌊h₂⌋.toNat := by
    have h := Int.floor_mono h12
    omega
  have hlen : (⌊h₂⌋.toNat) < t.length := by
    have hfq : ((⌊h₂⌋ : ℤ) : ℚ) ≤ (t.length : ℚ) - 1 := le_trans (Int.floor_le h₂) hub
    have hfz : ⌊h₂⌋ ≤ (t.length : ℤ) - 1 := by exact_mod_cast hfq
    omega
  obtain ⟨a₂, hg2⟩ : ∃ a, t.get? ⌊h₂⌋.toNat = some a := ⟨_, List.get?_eq_get hlen⟩
  rcases eq_or_lt_of_le hii with heq | hlt
  · have hg2' : t.get? ⌊h₁⌋.toNat = some a₂ := by rw [heq]; exact hg2
    have hcast : ((⌊h₁⌋.toNat : ℚ)) = ((⌊h₂⌋.toNat : ℚ)) := by rw [heq]
    cases hg3 : t.get? (⌊h₂⌋.toNat + 1) with
    | none =>
      have hg3' : t.get? (⌊h₁⌋.toNat + 1) = none := by rw [heq]; exact hg3
      rw [interp_eq_last hg2' hg3', interp_eq_last hg2 hg3]
    | some b =>
      have hg3' : t.get? (⌊h₁⌋.toNat + 1) = some b := by rw [heq]; exact hg3
      rw [interp_eq_of_get? hg2' hg3', interp_eq_of_get? hg2 hg3, hcast]
      have hab : a₂ ≤ b := sorted_get?_le hs (Nat.le_succ _) hg2 hg3
      exact add_le_add_left
        (mul_le_mul_of_nonneg_right (sub_le_sub_right h12 _)
          (sub_nonneg.mpr hab)) a₂
  · have hi1 : ⌊h₁⌋.toNat + 1 ≤ ⌊h₂⌋.toNat := hlt
    have hlen1 : ⌊h₁⌋.toNat + 1 < t.length := lt_of_le_of_lt hi1 hlen
    have hlen0 : ⌊h₁⌋.toNat < t.length := Nat.lt_of_succ_lt hlen1
    obtain ⟨a₁, hg1⟩ : ∃ a, t.get? ⌊h₁⌋.toNat = some a := ⟨_, List.get?_eq_get hlen0⟩
    obtain ⟨b₁, hg1s⟩ : ∃ a, t.get? (⌊h₁⌋.toNat + 1) = some a :=
      ⟨_, List.get?_eq_get hlen1⟩
    have hab1 : a₁ ≤ b₁ := sorted_get?_le hs (Nat.le_succ _) hg1 hg1s
    have hb1a2 : b₁ ≤ a₂ := sorted_get?_le hs hi1 hg1s hg2
    have hup : interp t h₁ ≤ b₁ := by
      rw [interp_eq_of_get? hg1 hg1s]
      have hγ : h₁ - ((⌊h₁⌋.toNat : ℚ)) ≤ 1 := by linarith
      nlinarith [sub_nonneg.mpr hab1]
    have hlow : a₂ ≤ interp t h₂ := by
      cases hg3 : t.get? (⌊h₂⌋.toNat + 1) with
      | none => rw [interp_eq_last hg2 hg3]
      | some b₂ =>
        rw [interp_eq_of_get? hg2 hg3]
        have hab2 : a₂ ≤ b₂ := sorted_get?_le hs (Nat.le_succ _) hg2 hg3
        have hγ : 0 ≤ h₂ - ((⌊h₂⌋.toNat : ℚ)) := by linarith
        nlinarith [sub_nonneg.mpr hab2]
    linarith

/-- The pandas linear-interpolation quantile is monotone in the
probability over a non-empty sample. -/
theorem quantile_mono {s : List ℚ} {p₁ p₂ : ℚ} (hne : s ≠ [])
    (hp0 : 0 ≤ p₁) (hp12 : p₁ ≤ p₂) (hp1 : p₂ ≤ 1) :
    quantile s p₁ ≤ quantile s p₂ := by
  unfold quantile
  have hsort : (s.insertionSort (· ≤ ·)).Sorted (· ≤ ·) :=
    List.sorted_insertionSort _ _
  have hn : 1 ≤ s.length := List.length_pos.mpr hne
  have hn' : (0 : ℚ) ≤ (s.length : ℚ) - 1 := by
    have h : (1 : ℚ) ≤ (s.length : ℚ) := by exact_mod_cast hn
    linarith
  apply interp_mono hsort (mul_nonneg hp0 hn')
    (mul_le_mul_of_nonneg_right hp12 hn')
  rw [List.length_insertionSort]
  exact mul_le_of_le_one_left hn' hp1

/-! ### Classifier lemmas -/

/-- The three per-sensitivity probability triples are ordered and lie in
the unit interval. -/
theorem sensQs_bounds (sens : String) :
    0 ≤ (sensQs sens).1 ∧ (sensQs sens).1 ≤ (sensQs sens).2.1
    ∧ (sensQs sens).2.1 ≤ (sensQs sens).2.2 ∧ (sensQs sens).2.2 ≤ 1 := by
  unfold sensQs
  split_ifs <;> norm_num

/-- Unfolding of `get_thresholds` on a series with at least one
non-missing flow value. -/
theorem get_thresholds_eq {flows : List (Option ℚ)} {sens : String}
    (hne : flows.filterMap id ≠ []) :
    get_thresholds flows sens =
      some (quantile (flows.filterMap id) (sensQs sens).1,
            quantile (flows.filterMap id) (sensQs sens).2.1,
            quantile (flows.filterMap id) (sensQs sens).2.2) := by
  simp only [get_thresholds]
  rw [if_neg]
  simpa using hne

/-- With ordered thresholds, the four status labels characterise the four
intervals of the real line. -/
theorem classify_status_iff {q1 q2 q3 : ℚ} (h12 : q1 ≤ q2) (h23 : q2 ≤ q3)
    (v : ℚ) :
    (classify_status (some v) (some (q1, q2, q3)) = "Lancar" ↔ v ≤ q1)
    ∧ (classify_status (some v) (some (q1, q2, q3)) = "Sedang" ↔ q1 < v ∧ v ≤ q2)
    ∧ (classify_status (some v) (some (q1, q2, q3)) = "Padat" ↔ q2 < v ∧ v ≤ q3)
    ∧ (classify_status (some v) (some (q1, q2, q3)) = "Sangat Padat" ↔ q3 < v) := by
  simp only [classify_status]
  by_cases h1 : v ≤ q1
  · rw [if_pos h1]
    refine ⟨⟨fun _ => h1, fun _ => rfl⟩, ?_, ?_, ?_⟩
    · constructor
      · intro hh; exact absurd hh (by decide)
      · rintro ⟨hh, -⟩; linarith
    · constructor
      · intro hh; exact absurd hh (by decide)
      · rintro ⟨hh, -⟩; linarith
    · constructor
      · intro hh; exact absurd hh (by decide)
      · intro hh; linarith
  · rw [if_neg h1]
    by_cases h2 : v ≤ q2
    · rw [if_pos h2]
      refine ⟨?_, ⟨fun _ => ⟨not_le.mp h1, h2⟩, fun _ => rfl⟩, ?_, ?_⟩
      · constructor
        · intro hh; exact absurd hh (by decide)
        · intro hh; exact absurd hh h1
      · constructor
        · intro hh; exact absurd hh (by decide)
        · rintro ⟨hh, -⟩; linarith
      · constructor
        · intro hh; exact absurd hh (by decide)
        · intro hh; linarith
    · rw [if_neg h2]
      by_cases h3 : v ≤ q3
      · rw [if_pos h3]
        refine ⟨?_, ?_, ⟨fun _ => ⟨not_le.mp h2, h3⟩, fun _ => rfl⟩, ?_⟩
        · constructor
          · intro hh; exact absurd hh (by decide)
          · intro hh; exact absurd (le_trans hh h12) h2
        · constructor
          · intro hh; exact absurd hh (by decide)
          · rintro ⟨-, hh⟩; exact absurd hh h2
        · constructor
          · intro hh; exact absurd hh (by decide)
          · intro hh; linarith
      · rw [if_neg h3]
        refine ⟨?_, ?_, ?_, ⟨fun _ => not_le.mp h3, fun _ => rfl⟩⟩
        · constructor
          · intro hh; exact absurd hh (by decide)
          · intro hh; exact absurd (le_trans (le_trans hh h12) h23) h3
        · constructor
          · intro hh; exact absurd hh (by decide)
          · rintro ⟨-, hh⟩; exact absurd (le_trans hh h23) h3
        · constructor
          · intro hh; exact absurd hh (by decide)
          · rintro ⟨-, hh⟩; exact absurd hh h3

/-- The first quantile threshold is at most the second. -/
theorem thresholds_q12 {flows : List (Option ℚ)} {sens : String}
    (hne : flows.filterMap id ≠ []) :
    quantile (flows.filterMap id) (sensQs sens).1
      ≤ quantile (flows.filterMap id) (sensQs sens).2.1 := by
  obtain ⟨b0, b12, b23, b1⟩ := sensQs_bounds sens
  exact quantile_mono hne b0 b12 (le_trans b23 b1)

/-- The second quantile threshold is at most the third. -/
theorem thresholds_q23 {flows : List (Option ℚ)} {sens : String}
    (hne : flows.filterMap id ≠ []) :
    quantile (flows.filterMap id) (sensQs sens).2.1
      ≤ quantile (flows.filterMap id) (sensQs sens).2.2 := by
  obtain ⟨b0, b12, b23, b1⟩ := sensQs_bounds sens
  exact quantile_mono hne (le_trans b0 b12) b23 b1

/-! ### C4: quantile thresholds and boundary-inclusive classification -/

/-- C4: over a filtered series with at least one non-missing flow value,
`get_thresholds` returns the quantiles of the non-missing flow values at
the probabilities (0.35, 0.65, 0.85) for Low ("Rendah"),
(0.25, 0.50, 0.75) for Medium ("Sedang"), (0.15, 0.35, 0.60) for High
("Tinggi"), and `classify_status` maps a non-missing flow `v` to
"Lancar" iff `v ≤ q1` (boundary inclusive), "Sedang" iff `q1 < v ≤ q2`,
"Padat" iff `q2 < v ≤ q3`, and "Sangat Padat" iff `v > q3`. -/
theorem classify_status_quantile_thresholds
    (flows : List (Option ℚ)) (sens : String) (v : ℚ)
    (hne : flows.filterMap id ≠ []) :
    ∃ q1 q2 q3 : ℚ,
      get_thresholds flows sens = some (q1, q2, q3)
      ∧ q1 = quantile (flows.filterMap id) (sensQs sens).1
      ∧ q2 = quantile (flows.filterMap id) (sensQs sens).2.1
      ∧ q3 = quantile (flows.filterMap id) (sensQs sens).2.2
      ∧ sensQs "Rendah" = (35/100, 65/100, 85/100)
      ∧ sensQs "Sedang" = (25/100, 50/100, 75/100)
      ∧ sensQs "Tinggi" = (15/100, 35/100, 60/100)
      ∧ (classify_status (some v) (get_thresholds flows sens) = "Lancar"
          ↔ v ≤ q1)
      ∧ (classify_status (some v) (get_thresholds flows sens) = "Sedang"
          ↔ q1 < v ∧ v ≤ q2)
      ∧ (classify_status (some v) (get_thresholds flows sens) = "Padat"
          ↔ q2 < v ∧ v ≤ q3)
      ∧ (classify_status (some v) (get_thresholds flows sens) = "Sangat Padat"
          ↔ q3 < v) := by
  refine ⟨_, _, _, get_thresholds_eq hne, rfl, rfl, rfl,
    by simp [sensQs], by simp [sensQs], by simp [sensQs], ?_⟩
  rw [get_thresholds_eq hne]
  exact classify_status_iff (thresholds_q12 hne) (thresholds_q23 hne) v

/-- Witness for the C4 theorem on the two-value series [0, 1] at Medium
sensitivity with query value 1. -/
theorem classify_status_quantile_thresholds_witness :
    (([some 0, some 1] : List (Option ℚ)).filterMap id ≠ [])
    ∧ (∃ q1 q2 q3 : ℚ,
      get_thresholds [some 0, some 1] "Sedang" = some (q1, q2, q3)
      ∧ q1 = quantile (([some 0, some 1] : List (Option ℚ)).filterMap id)
          (sensQs "Sedang").1
      ∧ q2 = quantile (([some 0, some 1] : List (Option ℚ)).filterMap id)
          (sensQs "Sedang").2.1
      ∧ q3 = quantile (([some 0, some 1] : List (Option ℚ)).filterMap id)
          (sensQs "Sedang").2.2
      ∧ sensQs "Rendah" = (35/100, 65/100, 85/100)
      ∧ sensQs "Sedang" = (25/100, 50/100, 75/100)
      ∧ sensQs "Tinggi" = (15/100, 35/100, 60/100)
      ∧ (classify_status (some 1) (get_thresholds [some 0, some 1] "Sedang")
          = "Lancar" ↔ (1 : ℚ) ≤ q1)
      ∧ (classify_status (some 1) (get_thresholds [some 0, some 1] "Sedang")
          = "Sedang" ↔ q1 < 1 ∧ (1 : ℚ) ≤ q2)
      ∧ (classify_status (some 1) (get_thresholds [some 0, some 1] "Sedang")
          = "Padat" ↔ q2 < 1 ∧ (1 : ℚ) ≤ q3)
      ∧ (classify_status (some 1) (get_thresholds [some 0, some 1] "Sedang")
          = "Sangat Padat" ↔ q3 < 1)) :=
  ⟨by simp, classify_status_quantile_thresholds [some 0, some 1] "Sedang" 1
    (by simp)⟩

/-! ### C7: unavailable status -/

/-- C7: with zero non-missing flow values the derived thresholds are
undefined (`None`) and classification of any flow value returns
"Tidak tersedia" without an error; a missing flow value likewise always
classifies as "Tidak tersedia". -/
theorem classify_status_unavailable
    (flows : List (Option ℚ)) (sens : String) (v : Option ℚ)
    (thr : Option (ℚ × ℚ × ℚ)) :
    (flows.filterMap id = [] →
      get_thresholds flows sens = none
      ∧ classify_status v (get_thresholds flows sens) = "Tidak tersedia")
    ∧ classify_status none thr = "Tidak tersedia" := by
  constructor
  · intro hempty
    have hthr : get_thresholds flows sens = none := by
      simp [get_thresholds, hempty]
    refine ⟨hthr, ?_⟩
    rw [hthr]
    rfl
  · cases thr with
    | none => rfl
    | some t =>
      obtain ⟨q1, q2, q3⟩ := t
      rfl

/-- Witness for the C7 theorem: the all-missing series [None], a present
query value, and a defined threshold triple with a missing query value. -/
theorem classify_status_unavailable_witness :
    get_thresholds [none] "Sedang" = none
    ∧ classify_status (some 5) (get_thresholds [none] "Sedang") = "Tidak tersedia"
    ∧ classify_status none (some ((1 : ℚ), (2 : ℚ), (3 : ℚ))) = "Tidak tersedia" := by
  obtain ⟨h1, h2⟩ :=
    (classify_status_unavailable [none] "Sedang" (some 5) (some (1, 2, 3))).1
      (by simp)
  exact ⟨h1, h2,
    (classify_status_unavailable [none] "Sedang" (some 5) (some (1, 2, 3))).2⟩

/-! ### C8: monotone thresholds, total non-overlapping classification -/

/-- C8: for any series with at least one non-missing flow value and any
sensitivity, the derived thresholds satisfy `q1 ≤ q2 ≤ q3`, and the
classification of real flow values is total (always one of the four
labels) and partitions the line into `(-∞, q1]`, `(q1, q2]`, `(q2, q3]`
and `(q3, ∞)`. -/
theorem thresholds_monotone_partition
    (flows : List (Option ℚ)) (sens : String)
    (hne : flows.filterMap id ≠ []) :
    ∃ q1 q2 q3 : ℚ,
      get_thresholds flows sens = some (q1, q2, q3)
      ∧ q1 ≤ q2 ∧ q2 ≤ q3
      ∧ ∀ v : ℚ,
        (classify_status (some v) (some (q1, q2, q3))
            ∈ (["Lancar", "Sedang", "Padat", "Sangat Padat"] : List String))
        ∧ (classify_status (some v) (some (q1, q2, q3)) = "Lancar" ↔ v ≤ q1)
        ∧ (classify_status (some v) (some (q1, q2, q3)) = "Sedang"
            ↔ q1 < v ∧ v ≤ q2)
        ∧ (classify_status (some v) (some (q1, q2, q3)) = "Padat"
            ↔ q2 < v ∧ v ≤ q3)
        ∧ (classify_status (some v) (some (q1, q2, q3)) = "Sangat Padat"
            ↔ q3 < v) := by
  refine ⟨_, _, _, get_thresholds_eq hne, thresholds_q12 hne,
    thresholds_q23 hne, fun v => ⟨?_, classify_status_iff
      (thresholds_q12 hne) (thresholds_q23 hne) v⟩⟩
  simp only [classify_status]
  split_ifs <;> simp

/-- Witness for the C8 theorem on the two-value series [0, 1] at High
sensitivity. -/
theorem thresholds_monotone_partition_witness :
    (([some 0, some 1] : List (Option ℚ)).filterMap id ≠ [])
    ∧ (∃ q1 q2 q3 : ℚ,
      get_thresholds [some 0, some 1] "Tinggi" = some (q1, q2, q3)
      ∧ q1 ≤ q2 ∧ q2 ≤ q3
      ∧ ∀ v : ℚ,
        (classify_status (some v) (some (q1, q2, q3))
            ∈ (["Lancar", "Sedang", "Padat", "Sangat Padat"] : List String))
        ∧ (classify_status (some v) (some (q1, q2, q3)) = "Lancar" ↔ v ≤ q1)
        ∧ (classify_status (some v) (some (q1, q2, q3)) = "Sedang"
            ↔ q1 < v ∧ v ≤ q2)
        ∧ (classify_status (some v) (some (q1, q2, q3)) = "Padat"
            ↔ q2 < v ∧ v ≤ q3)
        ∧ (classify_status (some v) (some (q1, q2, q3)) = "Sangat Padat"
            ↔ q3 < v)) :=
  ⟨by simp, thresholds_monotone_partition [some 0, some 1] "Tinggi" (by simp)⟩

/-! ### C10: detector ranking lemmas -/

instance : IsTotal DetAggRow flowDesc where
  total a b := by
    cases ha : a.flow_mean <;> cases hb : b.flow_mean <;>
      simp [flowDesc, flowDescB, ha, hb]
    exact le_total _ _

instance : IsTrans DetAggRow flowDesc where
  trans a b c hab hbc := by
    cases ha : a.flow_mean <;> cases hb : b.flow_mean <;> cases hc : c.flow_mean <;>
      simp_all [flowDesc, flowDescB]
    exact le_trans hbc hab

/-- Unfolding of the detector ranking when the `detid` column exists. -/
theorem agg_by_detid_at_hour_true (rows : List Record) (h : ℤ) :
    agg_by_detid_at_hour true rows h
      = ((sortedKeys ((rows.filter fun r => hourBin r = some h).filterMap
            Record.detid)).map fun k =>
          let g := (rows.filter fun r => hourBin r = some h).filter
            fun r => r.detid = some k
          ({ detid := k
             flow_mean := meanOpt (g.filterMap Record.flow)
             occ_mean := meanOpt (g.filterMap Record.occ)
             n := g.length } : DetAggRow)).insertionSort flowDesc := rfl

/-- C10: with a detector-id column present, every row of the ranking at a
selected hour stems from an input record of that hour with a present
(non-missing) detector id; the ranking is sorted descending by
`flow_mean` (missing means last); the counts of the ranking cover exactly
the rows of the hour whose detector id is present — rows with a missing
detector id are excluded — while the hour-only aggregation `agg_24h`
counts every row of the hour, missing detector id included. -/
theorem agg_by_detid_at_hour_spec (rows : List Record) (h : ℤ) :
    (∀ a ∈ agg_by_detid_at_hour true rows h,
        ∃ r ∈ rows, hourBin r = some h ∧ r.detid = some a.detid)
    ∧ List.Sorted flowDesc (agg_by_detid_at_hour true rows h)
    ∧ ((agg_by_detid_at_hour true rows h).map DetAggRow.n).sum
        = ((rows.filter fun r => hourBin r = some h).filter
            fun r => r.detid.isSome).length
    ∧ (∀ a ∈ agg_24h rows,
        a.n = (rows.filter fun r => hourBin r = some a.hour_bin).length) := by
  refine ⟨?_, ?_, ?_, ?_⟩
  · intro a ha
    rw [agg_by_detid_at_hour_true, List.mem_insertionSort] at ha
    obtain ⟨k, hk, rfl⟩ := List.mem_map.mp ha
    obtain ⟨r, hrd, hrk⟩ :=
      List.mem_filterMap.mp (mem_sortedKeys.mp hk)
    obtain ⟨hrrows, hpred⟩ := List.mem_filter.mp hrd
    exact ⟨r, hrrows, by simpa using hpred, hrk⟩
  · rw [agg_by_detid_at_hour_true]
    exact List.sorted_insertionSort _ _
  · rw [agg_by_detid_at_hour_true]
    rw [((List.perm_insertionSort flowDesc _).map DetAggRow.n).sum_eq,
      List.map_map]
    have hmap : (DetAggRow.n ∘ fun k =>
        let g := (rows.filter fun r => hourBin r = some h).filter
          fun r => r.detid = some k
        ({ detid := k
           flow_mean := meanOpt (g.filterMap Record.flow)
           occ_mean := meanOpt (g.filterMap Record.occ)
           n := g.length } : DetAggRow))
        = fun k => ((rows.filter fun r => hourBin r = some h).filter
            fun r => r.detid = some k).length := rfl
    rw [hmap]
    exact (sum_group_sizes Record.detid
        (rows.filter fun r => hourBin r = some h)).trans
      (length_filterMap_eq_isSome Record.detid
        (rows.filter fun r => hourBin r = some h))
  · intro a ha
    obtain ⟨k, _, rfl⟩ := List.mem_map.mp ha
    rfl

/-- Witness for the C10 theorem on a single record with detector id "a"
at hour 0. -/
theorem agg_by_detid_at_hour_spec_witness :
    (∃ r ∈ [rowDetA], hourBin r = some 0 ∧ r.detid = some "a")
    ∧ List.Sorted flowDesc (agg_by_detid_at_hour true [rowDetA] 0)
    ∧ rowDetAgg ∈ agg_by_detid_at_hour true [rowDetA] 0 := by
  have hmem : rowDetAgg ∈ agg_by_detid_at_hour true [rowDetA] 0 := by
    norm_num [agg_by_detid_at_hour, sortedKeys, hourBin, rowDetA, rowDetAgg,
      meanOpt, List.filter, List.filterMap, List.dedup, List.insertionSort,
      List.orderedInsert]
  have h1 := (agg_by_detid_at_hour_spec [rowDetA] 0).1 _ hmem
  exact ⟨h1, (agg_by_detid_at_hour_spec [rowDetA] 0).2.1, hmem⟩

/-! ### C5: single-sample groups in the CI band -/

/-- The sample standard deviation of a single value is NaN (pandas
`std` with `ddof = 1`). -/
theorem sampleStd_single (sq : ℚ → ℚ) {xs : List ℚ} (h : xs.length = 1) :
    sampleStd sq xs = none := by
  unfold sampleStd
  rw [if_pos h.le]

/-- C5 (amended): in the `interval_occ_ci_fig` variant, a group with
exactly one contributing sample has its standard deviation forced to 0
(`fillna(0)`), so `ci_low = ci_high = mean` for that group and nothing
undefined enters the band.  (In the `interval_occ_ci_plot` variant the
NaN standard deviation of such a group is not replaced and propagates
into `se`, `ci_low` and `ci_high`.) -/
theorem ci_fig_single_sample (sq : ℚ → ℚ) (rows : List Record) (g : CIRowF)
    (hg : g ∈ interval_occ_ci_fig sq rows) (h1 : g.n = 1) :
    g.std_occ = 0 ∧ g.ci_low = g.mean_occ ∧ g.ci_high = g.mean_occ := by
  simp only [interval_occ_ci_fig] at hg
  obtain ⟨k, hk, rfl⟩ := List.mem_map.mp hg
  dsimp only at h1 ⊢
  have hstd := sampleStd_single sq h1
  refine ⟨?_, ?_, ?_⟩
  · rw [hstd]; rfl
  · rw [hstd]
    simp only [Option.getD_none, zero_div, mul_zero, sub_zero]
  · rw [hstd]
    simp only [Option.getD_none, zero_div, mul_zero, add_zero]

/-- Witness for the C5 theorem: the single record `rowOcc1` produces the
one-sample group `ciRowF1` with a degenerate CI band. -/
theorem ci_fig_single_sample_witness :
    ciRowF1 ∈ interval_occ_ci_fig (fun _ => 0) [rowOcc1]
    ∧ (ciRowF1.std_occ = 0 ∧ ciRowF1.ci_low = ciRowF1.mean_occ
        ∧ ciRowF1.ci_high = ciRowF1.mean_occ) := by
  have hmem : ciRowF1 ∈ interval_occ_ci_fig (fun _ => 0) [rowOcc1] := by
    norm_num [interval_occ_ci_fig, dropnaOccInterval, hourInRange, hourBin,
      sortedKeys, rowOcc1, listMean, sampleStd, ciRowF1, List.filter,
      List.filterMap, List.dedup, List.insertionSort, List.orderedInsert]
  exact ⟨hmem, ci_fig_single_sample (fun _ => 0) [rowOcc1] ciRowF1 hmem rfl⟩

/-- C5 counterexample: in `interval_occ_ci_plot` a single-sample group
keeps its NaN standard deviation, so `se`, `ci_low` and `ci_high` are NaN
(`none`) rather than equal to the mean. -/
theorem ci_plot_single_sample_nan_cex :
    interval_occ_ci_plot (fun _ => 0) [rowOcc1] = some [ciRowP1]
    ∧ ciRowP1.count = 1 ∧ ciRowP1.ci_low = none
    ∧ ciRowP1.ci_low ≠ some ciRowP1.mean := by
  refine ⟨?_, rfl, rfl, by simp [ciRowP1]⟩
  norm_num [interval_occ_ci_plot, dropnaOccInterval, hourCont, sortedKeys,
    rowOcc1, listMean, sampleStd, ciRowP1, List.filter, List.filterMap,
    List.dedup, List.insertionSort, List.orderedInsert]

/-! ### C6: the two CI variants -/

/-- When every parseable interval is a whole number of hours within the
day, each surviving record of the dropna step has an integer hour bucket
in 0..23 whose cast is its continuous hour value. -/
theorem hour_facts {rows : List Record}
    (hiv : ∀ r ∈ rows, ∀ q : ℚ, r.interval = some q →
      q = 3600 * ((⌊q / 3600⌋ : ℤ) : ℚ) ∧ 0 ≤ q ∧ q ≤ 86399)
    {r : Record} (hr : r ∈ dropnaOccInterval rows) :
    ∃ k : ℤ, hourBin r = some k ∧ hourCont r = some ((k : ℤ) : ℚ)
      ∧ 0 ≤ k ∧ k ≤ 23 := by
  obtain ⟨hrows, hpred⟩ := List.mem_filter.mp hr
  have hint : r.interval.isSome := by
    have h := hpred
    simp only [Bool.and_eq_true] at h
    exact h.2
  obtain ⟨q, hq⟩ := Option.isSome_iff_exists.mp hint
  obtain ⟨hmul, hq0, hq1⟩ := hiv r hrows q hq
  have hdiv : q / 3600 = ((⌊q / 3600⌋ : ℤ) : ℚ) := by
    conv_lhs => rw [hmul]
    rw [mul_div_cancel_left₀ _ (by norm_num : (3600 : ℚ) ≠ 0)]
  refine ⟨⌊q / 3600⌋, by simp [hourBin, hq], ?_, ?_, ?_⟩
  · have hmap : hourCont r = some (q / 3600) := by simp [hourCont, hq]
    rw [hmap]
    exact congrArg some hdiv
  · have hcast : (0 : ℚ) ≤ ((⌊q / 3600⌋ : ℤ) : ℚ) := by nlinarith
    exact_mod_cast hcast
  · have hcast : ((⌊q / 3600⌋ : ℤ) : ℚ) < 24 := by nlinarith
    have : ⌊q / 3600⌋ < 24 := by exact_mod_cast hcast
    omega

/-- Under the whole-hour restriction the 0..23 row filter of
`interval_occ_ci_fig` keeps every row. -/
theorem filter_hourInRange_eq {rows : List Record}
    (hiv : ∀ r ∈ rows, ∀ q : ℚ, r.interval = some q →
      q = 3600 * ((⌊q / 3600⌋ : ℤ) : ℚ) ∧ 0 ≤ q ∧ q ≤ 86399) :
    (dropnaOccInterval rows).filter hourInRange = dropnaOccInterval rows := by
  apply List.filter_eq_self.mpr
  intro r hr
  obtain ⟨k, hk, -, h0, h23⟩ := hour_facts hiv hr
  simp only [hourInRange, hk]
  simp [h0, h23]

/-- Under the whole-hour restriction the continuous hour keys are the
casts of the integer hour keys. -/
theorem hourCont_keys_eq {rows : List Record}
    (hiv : ∀ r ∈ rows, ∀ q : ℚ, r.interval = some q →
      q = 3600 * ((⌊q / 3600⌋ : ℤ) : ℚ) ∧ 0 ≤ q ∧ q ≤ 86399) :
    (dropnaOccInterval rows).filterMap hourCont
      = ((dropnaOccInterval rows).filterMap hourBin).map fun k => ((k : ℤ) : ℚ) := by
  rw [List.map_filterMap]
  apply List.filterMap_congr
  intro r hr
  obtain ⟨k, hk, hkc, -, -⟩ := hour_facts hiv hr
  rw [hk, hkc]
  rfl

/-- Sorting distinct integer keys commutes with casting them to ℚ. -/
theorem sortedKeys_map_cast (xs : List ℤ) :
    sortedKeys (xs.map fun k => ((k : ℤ) : ℚ))
      = (sortedKeys xs).map fun k => ((k : ℤ) : ℚ) := by
  unfold sortedKeys
  rw [List.dedup_map_of_injective (fun a b hab => by exact_mod_cast hab)]
  apply List.eq_of_perm_of_sorted
    ((List.perm_insertionSort _ _).trans
      (((List.perm_insertionSort _ _).map _).symm))
    (List.sorted_insertionSort _ _)
  have hs := List.sorted_insertionSort (fun a b : ℤ => a ≤ b) xs.dedup
  exact List.Pairwise.map _ (fun a b hab => by exact_mod_cast hab) hs

/-- Under the whole-hour restriction the group of a continuous hour key
is the group of the corresponding integer hour key. -/
theorem group_cast_eq {rows : List Record}
    (hiv : ∀ r ∈ rows, ∀ q : ℚ, r.interval = some q →
      q = 3600 * ((⌊q / 3600⌋ : ℤ) : ℚ) ∧ 0 ≤ q ∧ q ≤ 86399) (k : ℤ) :
    (dropnaOccInterval rows).filter (fun r => hourCont r = some ((k : ℤ) : ℚ))
      = (dropnaOccInterval rows).filter (fun r => hourBin r = some k) := by
  apply List.filter_congr
  intro r hr
  obtain ⟨m, hm, hmc, -, -⟩ := hour_facts hiv hr
  rw [hm, hmc]
  apply decide_eq_decide.mpr
  constructor
  · intro hh
    have : ((m : ℤ) : ℚ) = ((k : ℤ) : ℚ) := by simpa using hh
    have : m = k := by exact_mod_cast this
    rw [this]
  · intro hh
    have : m = k := by simpa using hh
    rw [this]

/-- C6 (amended): the two CI variants agree whenever every parseable
interval is a whole number of hours within the day (`interval = 3600 * k`
with `0 ≤ k ≤ 23`), at least one record survives the dropna step, and
every hour group has at least two contributing samples: then
`interval_occ_ci_plot` returns exactly the per-hour series of
`interval_occ_ci_fig` with its hour keys cast to the continuous axis.
(In general the variants differ: the plot variant keys groups by the
continuous `interval/3600`, keeps NaN standard deviations and returns no
figure on empty input, while the fig variant floors hours, filters them
to 0..23 and forces single-sample standard deviations to 0.) -/
theorem ci_variants_agree (sq : ℚ → ℚ) (rows : List Record)
    (hiv : ∀ r ∈ rows, ∀ q : ℚ, r.interval = some q →
      q = 3600 * ((⌊q / 3600⌋ : ℤ) : ℚ) ∧ 0 ≤ q ∧ q ≤ 86399)
    (hne : dropnaOccInterval rows ≠ [])
    (hmin : ∀ g ∈ interval_occ_ci_fig sq rows, 2 ≤ g.n) :
    interval_occ_ci_plot sq rows
      = some ((interval_occ_ci_fig sq rows).map fun g =>
          (⟨((g.hour : ℤ) : ℚ), g.mean_occ, some g.std_occ, g.n, some g.se,
            some g.ci_low, some g.ci_high⟩ : CIRowP)) := by
  have hfir := filter_hourInRange_eq hiv
  have hn2 : ∀ k ∈ sortedKeys
      ((((dropnaOccInterval rows).filter hourInRange)).filterMap hourBin),
      2 ≤ (((((dropnaOccInterval rows).filter hourInRange)).filter
          fun r => hourBin r = some k).filterMap Record.occ).length := by
    intro k hk
    have hg := hmin _ (by
      simp only [interval_occ_ci_fig]
      exact List.mem_map_of_mem _ hk)
    simpa using hg
  rw [hfir] at hn2
  simp only [interval_occ_ci_plot, interval_occ_ci_fig, hfir]
  rw [if_neg (fun hh => hne (List.length_eq_zero.mp hh))]
  rw [hourCont_keys_eq hiv, sortedKeys_map_cast, List.map_map, List.map_map]
  apply congrArg some
  apply List.map_congr_left
  intro k hk
  simp only [Function.comp]
  rw [group_cast_eq hiv k]
  have h2 := hn2 k hk
  obtain ⟨s, hs⟩ : ∃ s, sampleStd sq
      (((dropnaOccInterval rows).filter
        fun r => hourBin r = some k).filterMap Record.occ) = some s := by
    unfold sampleStd
    rw [if_neg (by omega)]
    exact ⟨_, rfl⟩
  have hmax : max ((((dropnaOccInterval rows).filter
      fun r => hourBin r = some k).filterMap Record.occ).length) 1
      = (((dropnaOccInterval rows).filter
        fun r => hourBin r = some k).filterMap Record.occ).length :=
    Nat.max_eq_left (by omega)
  simp only [hs, hmax, Option.getD_some, Option.map_some']

/-- The fig variant on the two whole-hour records `[rowOcc0, rowOcc2]`
evaluates to the single two-sample group `ciRowF2`. -/
theorem ci_fig_two_sample_eval :
    interval_occ_ci_fig (fun _ => 1) [rowOcc0, rowOcc2] = [ciRowF2] := by
  norm_num [interval_occ_ci_fig, dropnaOccInterval, hourInRange, hourBin,
    sortedKeys, rowOcc0, rowOcc2, ciRowF2, listMean, sampleStd, List.filter,
    List.filterMap, List.dedup, List.insertionSort, List.orderedInsert]

/-- Witness for the C6 theorem on the records `[rowOcc0, rowOcc2]` (both
at interval 0, occupancies 0 and 2) and the constant-one square root. -/
theorem ci_variants_agree_witness :
    (∀ r ∈ [rowOcc0, rowOcc2], ∀ q : ℚ, r.interval = some q →
      q = 3600 * ((⌊q / 3600⌋ : ℤ) : ℚ) ∧ 0 ≤ q ∧ q ≤ 86399)
    ∧ dropnaOccInterval [rowOcc0, rowOcc2] ≠ []
    ∧ (∀ g ∈ interval_occ_ci_fig (fun _ => 1) [rowOcc0, rowOcc2], 2 ≤ g.n)
    ∧ interval_occ_ci_plot (fun _ => 1) [rowOcc0, rowOcc2]
      = some ((interval_occ_ci_fig (fun _ => 1) [rowOcc0, rowOcc2]).map fun g =>
          (⟨((g.hour : ℤ) : ℚ), g.mean_occ, some g.std_occ, g.n, some g.se,
            some g.ci_low, some g.ci_high⟩ : CIRowP)) := by
  have h1 : ∀ r ∈ [rowOcc0, rowOcc2], ∀ q : ℚ, r.interval = some q →
      q = 3600 * ((⌊q / 3600⌋ : ℤ) : ℚ) ∧ 0 ≤ q ∧ q ≤ 86399 := by
    intro r hr q hq
    rcases List.mem_cons.mp hr with rfl | hr
    · simp only [rowOcc0, Option.some_inj] at hq
      subst hq
      norm_num
    rcases List.mem_cons.mp hr with rfl | hr
    · simp only [rowOcc2, Option.some_inj] at hq
      subst hq
      norm_num
    exact absurd hr (List.not_mem_nil r)
  have h2 : dropnaOccInterval [rowOcc0, rowOcc2] ≠ [] := by
    simp [dropnaOccInterval, rowOcc0, rowOcc2, List.filter]
  have h3 : ∀ g ∈ interval_occ_ci_fig (fun _ => 1) [rowOcc0, rowOcc2],
      2 ≤ g.n := by
    intro g hg
    rw [ci_fig_two_sample_eval] at hg
    rcases List.mem_cons.mp hg with rfl | hg
    · norm_num [ciRowF2]
    exact absurd hg (List.not_mem_nil g)
  exact ⟨h1, h2, h3, ci_variants_agree (fun _ => 1) [rowOcc0, rowOcc2] h1 h2 h3⟩

/-- C6 counterexample: on two records with intervals 0 and 1800 the plot
variant produces two groups (continuous hours 0 and 1/2) while the fig
variant produces a single floored-hour group, so the two designs do not
yield the same per-hour series. -/
theorem ci_variants_differ_cex :
    (interval_occ_ci_plot (fun _ => 0) [rowOcc0, rowOccHalf]).map List.length
      = some 2
    ∧ (interval_occ_ci_fig (fun _ => 0) [rowOcc0, rowOccHalf]).length = 1 := by
  constructor
  · norm_num [interval_occ_ci_plot, dropnaOccInterval, hourCont, sortedKeys,
      rowOcc0, rowOccHalf, List.filter, List.filterMap, List.dedup,
      List.insertionSort, List.orderedInsert]
  · norm_num [interval_occ_ci_fig, dropnaOccInterval, hourInRange, hourBin,
      sortedKeys, rowOcc0, rowOccHalf, List.filter, List.filterMap,
      List.dedup, List.insertionSort, List.orderedInsert]
